import Mathlib

/-!
# go-authserver-cmd: registration / version-resolution pipeline

A shallow embedding of the `auth` package (`user.go`, `db.go`) and of the two
message handlers of `main/iohelpers.go`, followed by theorems about them.

Conventions of the embedding.

* Go `error` values are their message (`String`); `errors.Wrap err msg` builds
  `msg ++ ": " ++ err`.
* `int8`, `int16` and `int64` values are `Int`; no arithmetic is performed on
  them by the code, so no wrap-around can occur.
* `[]byte` values are `List Nat`.
* A function that can end in a Go run-time panic returns `Result`, which has a
  `panic` alternative besides `ok` and `error`.
* The libraries the code calls (JSON, bcrypt, UUID and ObjectID generation)
  are collected in `Env`; the document store is modelled by `Collection`.
* Channel sends are recorded, per channel and in order, in `Run`.
-/

namespace AuthServer

/-! ## External types -/

/-- Go `[]byte`. -/
abbrev Bytes := List Nat

/-- Type `objectid.ObjectID`, identified with its hexadecimal rendering. -/
structure ObjectID where
  hex : String
  deriving DecidableEq, Repr

/-- Zero value of `objectid.ObjectID`. -/
def ObjectID.zero : ObjectID := ⟨"000000000000000000000000"⟩

/-- Method `ObjectID.Hex`. -/
def ObjectID.Hex (id : ObjectID) : String := id.hex

/-- Type `uuuid.UUID`, identified with its canonical textual form. -/
structure UUID where
  text : String
  deriving DecidableEq, Repr

/-- Zero value `uuid.UUID{}`. -/
def UUID.zero : UUID := ⟨"00000000-0000-0000-0000-000000000000"⟩

/-- Method `UUID.String`. -/
def UUID.String (u : UUID) : String := u.text

/-- Function `errors.Wrap` of `github.com/pkg/errors`, on messages. -/
def Wrap (err : String) (message : String) : String := message ++ ": " ++ err

/-- Outcome of a Go call that may return normally, return an error, or panic. -/
inductive Result (α : Type) where
  | ok (a : α)
  | error (err : String)
  | panic (msg : String)
  deriving DecidableEq, Repr

/-- Values `json.Unmarshal` stores into an `interface{}`: `nil`, `bool`,
`float64`, `string`, `[]interface{}` and `map[string]interface{}`. A `float64`
is kept as the decimal `mantissa * 10 ^ exponent` it was read from. There is no
`int64` alternative: the decoder never produces one. -/
inductive JSONValue where
  | null
  | bool (b : Bool)
  | float64 (mantissa : Int) (exponent : Int)
  | string (s : String)
  | array (items : List JSONValue)
  | object (fields : List (String × JSONValue))
  deriving Repr

/-- Values placed in the `map[string]interface{}` built by `User.MarshalJSON`. -/
inductive GoValue where
  | string (s : String)
  | int64 (n : Int)
  deriving DecidableEq, Repr

/-- Values of a BSON document field, as far as `marshalUser` needs them. -/
inductive BSONValue where
  | objectID (id : ObjectID)
  | string (s : String)
  | int64 (n : Int)
  deriving DecidableEq, Repr

/-- Constants of the repository's `errors` package used by the code. Their
numeric values are not part of the sources at hand, so they are a parameter. -/
structure ErrorCodes where
  InternalError : Int
  UsernameExistsError : Int
  deriving DecidableEq, Repr

/-! ## `auth/user.go` -/

/-- Struct `User`. -/
structure User where
  ID : ObjectID
  UUID : UUID
  Email : String
  FirstName : String
  LastName : String
  Username : String
  Password : String
  Role : String
  Version : Int
  deriving DecidableEq, Repr

/-- Zero value `&auth.User{}`. -/
def User.zero : User :=
  { ID := ObjectID.zero, UUID := UUID.zero, Email := "", FirstName := "", LastName := "",
    Username := "", Password := "", Role := "", Version := 0 }

/-- Struct `marshalUser`: the simplified `User` handed to the BSON encoder. -/
structure marshalUser where
  ID : ObjectID
  UUID : String
  Email : String
  FirstName : String
  LastName : String
  Username : String
  Password : String
  Role : String
  Version : Int
  deriving DecidableEq, Repr

/-- The libraries the code calls. Identifier generators are indexed by the
number of identifiers drawn so far. -/
structure Env where
  /-- Function `objectid.New`. -/
  newObjectID : Nat → ObjectID
  /-- Function `uuuid.NewV4`. -/
  newV4 : Nat → Except String UUID
  /-- Function `uuuid.FromString`. -/
  uuidFromString : String → Except String UUID
  /-- Function `bcrypt.GenerateFromPassword`, with its cost argument. -/
  generateFromPassword : String → Nat → Except String String
  /-- Function `json.Unmarshal` into a `map[string]interface{}`. -/
  jsonUnmarshalMap : Bytes → Except String (List (String × JSONValue))
  /-- Function `json.Marshal` of a `map[string]interface{}`. -/
  jsonMarshalMap : List (String × GoValue) → Except String Bytes

/-- The `marshalUser` literal built by `User.MarshalBSON`, with the UUID text
filled in only when the UUID is not the zero UUID. -/
def MarshalBSON_mu (u : User) : marshalUser :=
  let mu : marshalUser :=
    { ID := u.ID, UUID := "", FirstName := u.FirstName, LastName := u.LastName,
      Email := u.Email, Username := u.Username, Password := u.Password,
      Role := u.Role, Version := u.Version }
  if u.UUID.String ≠ UUID.zero.String then { mu with UUID := u.UUID.String } else mu

/-- A string field tagged `omitempty`: left out of the document when empty. -/
def omitemptyString (key : String) (s : String) : List (String × BSONValue) :=
  if s = "" then [] else [(key, .string s)]

/-- An `int64` field tagged `omitempty`: left out of the document when zero. -/
def omitemptyInt64 (key : String) (n : Int) : List (String × BSONValue) :=
  if n = 0 then [] else [(key, .int64 n)]

/-- Function `bson.Marshal` on a `marshalUser`, following its struct tags: the
document lists the fields in declaration order under their `bson` names. -/
def bsonMarshal (mu : marshalUser) : List (String × BSONValue) :=
  [("_id", .objectID mu.ID)]
    ++ omitemptyString "uuid" mu.UUID
    ++ omitemptyString "email" mu.Email
    ++ omitemptyString "first_name" mu.FirstName
    ++ omitemptyString "last_name" mu.LastName
    ++ omitemptyString "username" mu.Username
    ++ omitemptyString "password" mu.Password
    ++ omitemptyString "role" mu.Role
    ++ omitemptyInt64 "version" mu.Version

/-- Method `User.MarshalBSON`. -/
def MarshalBSON (u : User) : List (String × BSONValue) :=
  bsonMarshal (MarshalBSON_mu u)

/-- Reading a string field of a document into a struct field: an absent field
leaves the zero value `""`. -/
def bsonStringField (doc : List (String × BSONValue)) (key : String) : String :=
  match doc.lookup key with
  | some (.string s) => s
  | _ => ""

/-- The map literal built by `User.MarshalJSON`. -/
def MarshalJSON_map (u : User) : List (String × GoValue) :=
  [ ("_id", .string u.ID.Hex),
    ("first_name", .string u.FirstName),
    ("last_name", .string u.LastName),
    ("email", .string u.Email),
    ("username", .string u.Username),
    ("role", .string u.Role),
    ("uuid", .string u.UUID.String),
    ("version", .int64 u.Version) ]

/-- Method `User.MarshalJSON`. -/
def MarshalJSON (env : Env) (u : User) : Except String Bytes :=
  env.jsonMarshalMap (MarshalJSON_map u)

/-- Expression `m[key]` on a decoded JSON object: `nil` when the key is absent. -/
def mapIndex (m : List (String × JSONValue)) (key : String) : JSONValue :=
  match m.lookup key with
  | some v => v
  | none => .null

/-- Test `v != nil`. -/
def JSONValue.isNil : JSONValue → Bool
  | .null => true
  | _ => false

/-- Name of the dynamic type of a decoded JSON value, as the Go runtime prints
it in the message of a failed type assertion. -/
def goTypeName : JSONValue → String
  | .null => "nil"
  | .bool _ => "bool"
  | .float64 _ _ => "float64"
  | .string _ => "string"
  | .array _ => "[]interface \x7b\x7d"
  | .object _ => "map[string]interface \x7b\x7d"

/-- Type assertion `v.(string)`: panics unless `v` holds a string. -/
def assertString (v : JSONValue) : Result String :=
  match v with
  | .string s => .ok s
  | other =>
    .panic ("interface conversion: interface \x7b\x7d is " ++ goTypeName other
      ++ ", not string")

/-- Type assertion `v.(int64)`: panics unless `v` holds an `int64`, which no
value produced by the JSON decoder does. -/
def assertInt64 (v : JSONValue) : Result Int :=
  .panic ("interface conversion: interface \x7b\x7d is " ++ goTypeName v ++ ", not int64")

/-- One `if m[key] != nil { field = m[key].(string) }` step of `UnmarshalJSON`. -/
def setStringField (m : List (String × JSONValue)) (key : String)
    (set : User → String → User) (u : User) : Result User :=
  if (mapIndex m key).isNil then .ok u
  else
    match assertString (mapIndex m key) with
    | .ok s => .ok (set u s)
    | .error e => .error e
    | .panic p => .panic p

/-- Sequencing of steps that may return early with an error or panic. -/
def Result.bind {α β : Type} (r : Result α) (f : α → Result β) : Result β :=
  match r with
  | .ok a => f a
  | .error e => .error e
  | .panic p => .panic p

/-- The `uuid` step of `User.UnmarshalJSON`. -/
def setUUIDField (env : Env) (m : List (String × JSONValue)) (u : User) : Result User :=
  if (mapIndex m "uuid").isNil then .ok u
  else
    match assertString (mapIndex m "uuid") with
    | .ok uuidStr =>
      match env.uuidFromString uuidStr with
      | .error err => .error (Wrap err "Error Unmarshalling User UUID")
      | .ok uuid => .ok { u with UUID := uuid }
    | .error e => .error e
    | .panic p => .panic p

/-- The `version` step of `User.UnmarshalJSON`. -/
def setVersionField (m : List (String × JSONValue)) (u : User) : Result User :=
  if (mapIndex m "version").isNil then .ok u
  else
    match assertInt64 (mapIndex m "version") with
    | .ok v => .ok { u with Version := v }
    | .error e => .error e
    | .panic p => .panic p

/-- Method `User.UnmarshalJSON`, after the JSON text was decoded into `m`;
`id` is the value drawn from `objectid.New`. -/
def UnmarshalJSON_fields (env : Env) (id : ObjectID) (m : List (String × JSONValue))
    (u : User) : Result User :=
  (((((((setUUIDField env m { u with ID := id }).bind
    (setStringField m "email" (fun u s => { u with Email := s }))).bind
    (setStringField m "firstName" (fun u s => { u with FirstName := s }))).bind
    (setStringField m "lastName" (fun u s => { u with LastName := s }))).bind
    (setStringField m "username" (fun u s => { u with Username := s }))).bind
    (setStringField m "password" (fun u s => { u with Password := s }))).bind
    (setStringField m "role" (fun u s => { u with Role := s }))).bind
    (setVersionField m)

/-- Method `User.UnmarshalJSON`; `clock` counts the identifiers drawn so far,
and the count after the call is returned with the outcome. -/
def UnmarshalJSON (env : Env) (clock : Nat) (u : User) (input : Bytes) : Result User × Nat :=
  match env.jsonUnmarshalMap input with
  | .error err => (.error err, clock)
  | .ok m => (UnmarshalJSON_fields env (env.newObjectID clock) m u, clock + 1)

/-! ## The document store -/

/-- The MongoDB collection behind `DB`: the stored user records, oldest
first, and a pending infrastructure fault (lost connection, timeout), if any.
The collection has unique indexes on `username` and on `version`. -/
structure Collection where
  docs : List User
  fault : Option String
  deriving DecidableEq, Repr

/-- Cause of a failed store operation. -/
inductive StoreError where
  | duplicateKey (index : String)
  | other (msg : String)
  deriving DecidableEq, Repr

/-- Method `Error` of a store error. -/
def StoreError.Error : StoreError → String
  | .duplicateKey index => "E11000 duplicate key error index: " ++ index
  | .other msg => msg

/-- Placing `u` into a list sorted by descending version. -/
def insertDesc (u : User) : List User → List User
  | [] => [u]
  | v :: rest => if v.Version ≤ u.Version then u :: v :: rest else v :: insertDesc u rest

/-- Sort option `{"version": -1}`: records by descending version. -/
def sortVersionDesc : List User → List User
  | [] => []
  | u :: rest => insertDesc u (sortVersionDesc rest)

/-- Query `FindOne({"version": {"$gt": 0}}, Sort({"version": -1}))`, the only
one the code issues: the first record, by descending version, among those with
a positive version. It fails when the store is unreachable and when no record
matches. -/
def Collection.FindOne (c : Collection) : Except String User :=
  match c.fault with
  | some msg => .error msg
  | none =>
    match sortVersionDesc (c.docs.filter (fun u => decide (0 < u.Version))) with
    | [] => .error "mongo: no documents in result"
    | u :: _ => .ok u

/-- Method `InsertOne`: fails when the store is unreachable, and with a
duplicate-key error when a unique index (`_id`, `username`, `version`) already
holds the value of the new record; otherwise the record is appended. -/
def Collection.InsertOne (c : Collection) (u : User) : Except StoreError Collection :=
  match c.fault with
  | some msg => .error (.other msg)
  | none =>
    if c.docs.any (fun d => decide (d.ID = u.ID)) then .error (.duplicateKey "_id_")
    else if c.docs.any (fun d => decide (d.Username = u.Username)) then
      .error (.duplicateKey "username_index")
    else if c.docs.any (fun d => decide (d.Version = u.Version)) then
      .error (.duplicateKey "version_index")
    else .ok { c with docs := c.docs ++ [u] }

/-- Everything the handlers can change: the collection and the number of
identifiers drawn from the generators so far. -/
structure World where
  collection : Collection
  clock : Nat
  deriving DecidableEq, Repr

/-! ## `auth/db.go` -/

/-- Dynamic type of the value returned by `FindOne` as an `interface{}`. -/
inductive FindResult where
  | user (u : User)
  | other
  deriving DecidableEq, Repr

/-- Body of `DB.GetMaxVersion`, given what `FindOne` returned. -/
def GetMaxVersion_of (found : Except String FindResult) : Int × Option String :=
  match found with
  | .error _ => (1, none)
  | .ok findResult =>
    match findResult with
    | .user user => (user.Version, none)
    | .other => (-1, some "GetMaxVersion Error: Unable to convert result to User")

/-- Method `DB.GetMaxVersion`. The collection's schema is `User`, so a found
document is always handed back as a `User`. -/
def GetMaxVersion (c : Collection) : Int × Option String :=
  GetMaxVersion_of (match c.FindOne with
    | .error e => .error e
    | .ok u => .ok (.user u))

/-- What `Register` returns: the user, the error and the error code. -/
structure RegisterResult where
  user : Option User
  err : Option String
  code : Int
  deriving DecidableEq, Repr

/-- Method `DB.Register`. -/
def Register (env : Env) (ec : ErrorCodes) (w : World) (user : User) :
    RegisterResult × World :=
  let user := { user with ID := env.newObjectID w.clock }
  let w := { w with clock := w.clock + 1 }
  match env.newV4 w.clock with
  | .error err =>
    (⟨none, some (Wrap err "Registration: Error generating UUID"), ec.InternalError⟩,
      { w with clock := w.clock + 1 })
  | .ok uid =>
    let w := { w with clock := w.clock + 1 }
    let user := { user with UUID := uid }
    match env.generateFromPassword user.Password 10 with
    | .error err =>
      (⟨none, some (Wrap err "Registration: Error creating Hash for password"),
        ec.InternalError⟩, w)
    | .ok hashedPass =>
      let user := { user with Password := hashedPass }
      match w.collection.InsertOne user with
      | .error err =>
        (⟨none, some (Wrap err.Error "Registration: Error inserting user into Database"),
          ec.UsernameExistsError⟩, w)
      | .ok c =>
        -- Don't send hashed-password to any other service
        (⟨some { user with Password := "" }, none, 0⟩, { w with collection := c })

/-- Interface `DBI`, without the `Collection` accessor. -/
structure DBI where
  GetMaxVersion : World → Int × Option String
  Register : World → User → RegisterResult × World

/-- The implementation `DB` of `DBI`. -/
def DB (env : Env) (ec : ErrorCodes) : DBI :=
  { GetMaxVersion := fun w => GetMaxVersion w.collection
    Register := Register env ec }

/-! ## `main/iohelpers.go` -/

/-- Struct `sarama.ConsumerMessage`. -/
structure ConsumerMessage where
  Topic : String
  Partition : Int
  Offset : Int
  Value : Bytes
  deriving DecidableEq, Repr

/-- Struct `model.Event`, with the fields the handlers read. -/
structure Event where
  AggregateID : Int
  CorrelationID : UUID
  Data : Bytes
  UUID : UUID
  Version : Int
  deriving DecidableEq, Repr

/-- Struct `model.EventStoreQuery`. -/
structure EventStoreQuery where
  AggregateID : Int
  CorrelationID : UUID
  AggregateVersion : Int
  YearBucket : Int
  deriving DecidableEq, Repr

/-- Struct `model.KafkaResponse`. -/
structure KafkaResponse where
  AggregateID : Int
  CorrelationID : UUID
  Error : String
  ErrorCode : Int
  Result : Bytes
  deriving DecidableEq, Repr

/-- Function `json.Unmarshal` at the three struct types the handlers decode into. -/
structure Codec where
  unmarshalEvent : Bytes → Except String Event
  unmarshalKafkaResponse : Bytes → Except String KafkaResponse
  unmarshalEvents : Bytes → Except String (List Event)

/-- One run of a handler task: the world it leaves behind, what it sent on
each channel (in order), the `Register` calls it made, and the panic that ended
it, if any. -/
structure Run where
  world : World
  offsets : List ConsumerMessage
  queries : List EventStoreQuery
  outcomes : List KafkaResponse
  registerCalls : List User
  panicked : Option String
  deriving DecidableEq, Repr

/-- A run that did nothing. -/
def Run.idle (w : World) : Run :=
  { world := w, offsets := [], queries := [], outcomes := [], registerCalls := [],
    panicked := none }

/-- Function `handleEvents`. -/
def handleEvents (codec : Codec) (ec : ErrorCodes) (db : DBI) (w : World)
    (msg : ConsumerMessage) : Run :=
  match codec.unmarshalEvent msg.Value with
  | .error _ => Run.idle w
  | .ok event =>
    if event.AggregateID = 1 then
      match db.GetMaxVersion w with
      | (_, some err) =>
        { Run.idle w with
          offsets := [msg]
          outcomes := [{ AggregateID := 1, CorrelationID := event.CorrelationID,
                         Error := Wrap err "Error fetching max version",
                         ErrorCode := ec.InternalError, Result := [] }] }
      | (currVersion, none) =>
        { Run.idle w with
          offsets := [msg]
          queries := [{ AggregateID := 1, CorrelationID := event.CorrelationID,
                        AggregateVersion := currVersion, YearBucket := 2018 }] }
    else Run.idle w

/-- Call `json.Marshal(authUser)` on the pointer returned by `Register`: a nil
pointer is encoded as `null`, any other through `User.MarshalJSON`. -/
def jsonMarshalUser (env : Env) (authUser : Option User) : Except String Bytes :=
  match authUser with
  | none => .ok [110, 117, 108, 108]
  | some u => MarshalJSON env u

/-- What one iteration of the loop of `handleESQueryResponse` does. -/
structure EventStep where
  world : World
  outcome : Option KafkaResponse
  registerCall : Option User
  panicked : Option String
  deriving DecidableEq, Repr

/-- Body of the `for _, event := range *events` loop of `handleESQueryResponse`. -/
def handleESQueryResponse_event (env : Env) (ec : ErrorCodes) (db : DBI) (w : World)
    (event : Event) : EventStep :=
  match UnmarshalJSON env w.clock User.zero event.Data with
  | (.panic p, clock) =>
    { world := { w with clock := clock }, outcome := none, registerCall := none,
      panicked := some p }
  | (.error err, clock) =>
    { world := { w with clock := clock }
      outcome := some { AggregateID := 1, CorrelationID := event.CorrelationID,
                        Error := Wrap err "Error Unmarsahlling EventStoreQuery into User Aggregate",
                        ErrorCode := ec.InternalError, Result := [] }
      registerCall := none, panicked := none }
  | (.ok user, clock) =>
    let user := { user with Version := event.Version }
    let (r, w) := db.Register { w with clock := clock } user
    match r.err with
    | some err =>
      { world := w
        outcome := some { AggregateID := 1, CorrelationID := event.CorrelationID,
                          Error := Wrap err "Error inserting user into Database",
                          ErrorCode := r.code, Result := [] }
        registerCall := some user, panicked := none }
    | none =>
      match jsonMarshalUser env r.user with
      | .error err =>
        { world := w
          outcome := some { AggregateID := 1, CorrelationID := event.CorrelationID,
                            Error := Wrap err
                              ("Error Marshalling User from Event ID: " ++ event.UUID.String),
                            ErrorCode := ec.InternalError, Result := [] }
          registerCall := some user, panicked := none }
      | .ok authUserBytes =>
        { world := w
          outcome := some { AggregateID := 1, CorrelationID := event.CorrelationID,
                            Error := "", ErrorCode := 0, Result := authUserBytes }
          registerCall := some user, panicked := none }

/-- The `for` loop of `handleESQueryResponse`, continuing the run `r`: events
are handled in order, and a panic ends the task. -/
def handleESQueryResponse_loop (env : Env) (ec : ErrorCodes) (db : DBI) :
    List Event → Run → Run
  | [], r => r
  | event :: rest, r =>
    let step := handleESQueryResponse_event env ec db r.world event
    let r1 : Run :=
      { r with
        world := step.world
        outcomes := r.outcomes ++ step.outcome.toList
        registerCalls := r.registerCalls ++ step.registerCall.toList
        panicked := step.panicked }
    match step.panicked with
    | some _ => r1
    | none => handleESQueryResponse_loop env ec db rest r1

/-- Function `handleESQueryResponse`. -/
def handleESQueryResponse (env : Env) (codec : Codec) (ec : ErrorCodes) (db : DBI)
    (w : World) (msg : ConsumerMessage) : Run :=
  match codec.unmarshalKafkaResponse msg.Value with
  | .error _ => Run.idle w
  | .ok kr =>
    if kr.AggregateID = 1 then
      match codec.unmarshalEvents kr.Result with
      | .error err =>
        { Run.idle w with
          offsets := [msg]
          outcomes := [{ AggregateID := 1, CorrelationID := kr.CorrelationID,
                         Error := Wrap err
                           "Error unmarshalling KafkaResult into Register-Events",
                         ErrorCode := ec.InternalError, Result := [] }] }
      | .ok events =>
        handleESQueryResponse_loop env ec db events { Run.idle w with offsets := [msg] }
    else Run.idle w

/-! ## Sample inputs -/

/-- A user record with the given username and version. -/
def sampleUser (name : String) (version : Int) : User :=
  { User.zero with ID := ⟨name⟩, Username := name, Version := version }

/-- A reachable store holding a single record, of version 0. -/
def storeVersionZero : Collection := { docs := [sampleUser "carol" 0], fault := none }

/-- A reachable store holding records of versions 3, 7 and 0. -/
def storeThree : Collection :=
  { docs := [sampleUser "alice" 3, sampleUser "bob" 7, sampleUser "carol" 0], fault := none }

/-- Sample values for the constants of the `errors` package. -/
def sampleCodes : ErrorCodes := { InternalError := 1, UsernameExistsError := 2 }

/-- Sample libraries: identifiers are runs of a letter whose length is the
draw count, the hash prepends a marker, and the JSON decoder knows three
payloads: `[1]` is an object with a username, an email and a password, `[2]`
an object whose only member is the number 5 under `version`, `[3]` an object
whose `email` is the number 7. -/
def sampleEnv : Env :=
  { newObjectID := fun n => ⟨String.mk (List.replicate (n + 1) 'a')⟩
    newV4 := fun n => .ok ⟨String.mk (List.replicate (n + 1) 'b')⟩
    uuidFromString := fun s =>
      if s.length = 36 then .ok ⟨s⟩ else .error "uuid: incorrect UUID length"
    generateFromPassword := fun p _ => .ok ("$2a$10$" ++ p)
    jsonUnmarshalMap := fun input =>
      match input with
      | [1] => .ok [("username", .string "alice"), ("email", .string "a@x.com"),
                    ("password", .string "secret")]
      | [2] => .ok [("version", .float64 5 0)]
      | [3] => .ok [("email", .float64 7 0)]
      | _ => .error "invalid character"
    jsonMarshalMap := fun m =>
      .ok (m.map (fun kv =>
        match kv.2 with
        | .string s => s.length
        | .int64 n => n.toNat)) }

/-- Sample wire format: an event is `[discriminator, version]`, a response is
its discriminator followed by its result, and a result lists one payload tag
per event, each event getting version 5 and its own correlation identifier. -/
def sampleCodec : Codec :=
  { unmarshalEvent := fun b =>
      match b with
      | [a, v] => .ok { AggregateID := a, CorrelationID := ⟨"c1"⟩, Data := [],
                        UUID := ⟨"e1"⟩, Version := v }
      | _ => .error "unexpected end of JSON input"
    unmarshalKafkaResponse := fun b =>
      match b with
      | a :: result => .ok { AggregateID := a, CorrelationID := ⟨"k1"⟩, Error := "",
                             ErrorCode := 0, Result := result }
      | [] => .error "unexpected end of JSON input"
    unmarshalEvents := fun b =>
      .ok (b.map (fun tag =>
        { AggregateID := 1, CorrelationID := ⟨String.mk (List.replicate tag 'c')⟩,
          Data := [tag], UUID := ⟨"e1"⟩, Version := 5 })) }

/-- An empty, reachable store. -/
def emptyStore : Collection := { docs := [], fault := none }

/-- A store that cannot be reached. -/
def unreachableStore : Collection := { docs := [], fault := some "connection timed out" }

/-- A message with the given body. -/
def sampleMessage (value : Bytes) : ConsumerMessage :=
  { Topic := "events", Partition := 0, Offset := 42, Value := value }

/-- A test double for `DBI` whose `GetMaxVersion` takes the error return of
the source (`FindOne` handed back something that is not a `User`). -/
def failingDB : DBI :=
  { GetMaxVersion := fun _ => GetMaxVersion_of (.ok .other)
    Register := Register sampleEnv sampleCodes }

/-! ## The store query -/

theorem mem_insertDesc (x u : User) (l : List User) :
    x ∈ insertDesc u l ↔ x = u ∨ x ∈ l := by
  induction l with
  | nil => simp [insertDesc]
  | cons v rest ih =>
    unfold insertDesc
    split
    · simp
    · simp only [List.mem_cons, ih]
      tauto

theorem mem_sortVersionDesc (x : User) (l : List User) :
    x ∈ sortVersionDesc l ↔ x ∈ l := by
  induction l with
  | nil => simp [sortVersionDesc]
  | cons u rest ih => simp [sortVersionDesc, mem_insertDesc, ih]

theorem pairwise_insertDesc (u : User) (l : List User)
    (h : l.Pairwise (fun a b => b.Version ≤ a.Version)) :
    (insertDesc u l).Pairwise (fun a b => b.Version ≤ a.Version) := by
  induction l with
  | nil => simp [insertDesc]
  | cons v rest ih =>
    rw [List.pairwise_cons] at h
    unfold insertDesc
    split
    · rename_i hle
      refine List.pairwise_cons.2 ⟨?_, List.pairwise_cons.2 h⟩
      intro b hb
      rcases List.mem_cons.1 hb with rfl | hb
      · exact hle
      · exact le_trans (h.1 b hb) hle
    · rename_i hlt
      refine List.pairwise_cons.2 ⟨?_, ih h.2⟩
      intro b hb
      rcases (mem_insertDesc b u rest).1 hb with rfl | hb
      · exact le_of_lt (not_le.1 hlt)
      · exact h.1 b hb

theorem pairwise_sortVersionDesc (l : List User) :
    (sortVersionDesc l).Pairwise (fun a b => b.Version ≤ a.Version) := by
  induction l with
  | nil => simp [sortVersionDesc]
  | cons u rest ih => exact pairwise_insertDesc u _ ih

/-- The head of the sorted list is one of the records and no record has a
greater version. -/
theorem head_sortVersionDesc (l : List User) (u : User) (rest : List User)
    (h : sortVersionDesc l = u :: rest) :
    u ∈ l ∧ ∀ v ∈ l, v.Version ≤ u.Version := by
  have hp := pairwise_sortVersionDesc l
  rw [h, List.pairwise_cons] at hp
  refine ⟨(mem_sortVersionDesc u l).1 (by rw [h]; exact List.mem_cons_self _ _), ?_⟩
  intro v hv
  have hv2 : v ∈ u :: rest := by rw [← h]; exact (mem_sortVersionDesc v l).2 hv
  rcases List.mem_cons.1 hv2 with rfl | hv2
  · exact le_refl _
  · exact hp.1 v hv2

theorem sortVersionDesc_eq_nil (l : List User) (h : sortVersionDesc l = []) : l = [] := by
  cases l with
  | nil => rfl
  | cons u rest =>
    have : u ∈ sortVersionDesc (u :: rest) :=
      (mem_sortVersionDesc u _).2 (List.mem_cons_self _ _)
    rw [h] at this
    exact absurd this (List.not_mem_nil _)

/-- With no record of positive version the query finds nothing and
`GetMaxVersion` falls back to 1, with no error. -/
theorem GetMaxVersion_fallback (c : Collection)
    (hall : ∀ u ∈ c.docs, u.Version ≤ 0) : GetMaxVersion c = (1, none) := by
  have hnil : c.docs.filter (fun u => decide (0 < u.Version)) = [] := by
    rw [List.filter_eq_nil_iff]
    intro u hu
    simpa using hall u hu
  unfold GetMaxVersion Collection.FindOne
  rw [hnil]
  cases c.fault <;> simp [sortVersionDesc, GetMaxVersion_of]

/-- Claim C1, as amended: `GetMaxVersion` returns 1 and no error whenever no
stored record has a positive version (the store may be non-empty), and for a
reachable store with at least one record of positive version it returns, with
no error, the greatest version among all stored records. -/
theorem GetMaxVersion_greatest_positive (c : Collection) :
    ((∀ u ∈ c.docs, u.Version ≤ 0) → GetMaxVersion c = (1, none)) ∧
    (c.fault = none → (∃ u ∈ c.docs, 0 < u.Version) →
      ∃ u ∈ c.docs, GetMaxVersion c = (u.Version, none) ∧
        ∀ v ∈ c.docs, v.Version ≤ u.Version) := by
  constructor
  · exact GetMaxVersion_fallback c
  · intro hfault hex
    obtain ⟨p, hp, hpos⟩ := hex
    cases hs : sortVersionDesc (c.docs.filter (fun u => decide (0 < u.Version))) with
    | nil =>
      have hnil := sortVersionDesc_eq_nil _ hs
      have hmem : p ∈ c.docs.filter (fun u => decide (0 < u.Version)) :=
        List.mem_filter.2 ⟨hp, by simpa using hpos⟩
      rw [hnil] at hmem
      exact absurd hmem (List.not_mem_nil _)
    | cons u rest =>
      obtain ⟨hu, hmax⟩ := head_sortVersionDesc _ u rest hs
      rw [List.mem_filter] at hu
      have hupos : 0 < u.Version := by simpa using hu.2
      refine ⟨u, hu.1, ?_, ?_⟩
      · unfold GetMaxVersion Collection.FindOne
        rw [hfault]
        simp only [hs, GetMaxVersion_of]
      · intro v hv
        by_cases hvpos : 0 < v.Version
        · exact hmax v (List.mem_filter.2 ⟨hv, by simpa using hvpos⟩)
        · exact le_trans (not_lt.1 hvpos) (le_of_lt hupos)

/-- Witness for C1: in the store with versions 3, 7 and 0 the result is the
version of a stored record that no other record exceeds. -/
theorem GetMaxVersion_greatest_positive_witness :
    ∃ u ∈ storeThree.docs, GetMaxVersion storeThree = (u.Version, none) ∧
      ∀ v ∈ storeThree.docs, v.Version ≤ u.Version :=
  (GetMaxVersion_greatest_positive storeThree).2 rfl
    ⟨sampleUser "bob" 7, by simp [storeThree], by decide⟩

/-- Counterexample to C1 as stated: a non-empty store whose only record has
version 0 makes `GetMaxVersion` return 1, which is not the greatest stored
version (that is 0) nor the version of any stored record. -/
theorem GetMaxVersion_nonempty_not_greatest :
    storeVersionZero.docs ≠ [] ∧ GetMaxVersion storeVersionZero = (1, none) ∧
    (∀ u ∈ storeVersionZero.docs, u.Version = 0) ∧
    ¬ (∃ u ∈ storeVersionZero.docs, (GetMaxVersion storeVersionZero).1 = u.Version) := by
  refine ⟨by simp [storeVersionZero], by decide, ?_, ?_⟩
  · intro u hu
    simp only [storeVersionZero, List.mem_singleton] at hu
    rw [hu]; rfl
  · rintro ⟨u, hu, h⟩
    simp only [storeVersionZero, List.mem_singleton] at hu
    rw [hu] at h
    revert h
    decide

/-! ## `Register` -/

/-- Claim C2: whenever the insert fails, whatever the cause (a uniqueness
violation or any other store failure), `Register` returns no user and the
error code `UsernameExistsError`; a failure that is not a uniqueness violation
is therefore not reported as `InternalError`. -/
theorem Register_insert_failure_code (env : Env) (ec : ErrorCodes) (w : World) (user : User)
    (uid : UUID) (hashedPass : String) (cause : StoreError)
    (huuid : env.newV4 (w.clock + 1) = .ok uid)
    (hhash : env.generateFromPassword user.Password 10 = .ok hashedPass)
    (hins : w.collection.InsertOne
      { user with ID := env.newObjectID w.clock, UUID := uid, Password := hashedPass }
        = .error cause) :
    (Register env ec w user).1 =
      ⟨none, some (Wrap cause.Error "Registration: Error inserting user into Database"),
        ec.UsernameExistsError⟩ := by
  simp only [Register, huuid, hhash, hins]

/-- Witness for C2: with the store unreachable the insert fails with a cause
that is not a duplicate key, and the code returned is `UsernameExistsError`. -/
theorem Register_insert_failure_code_witness :
    unreachableStore.InsertOne
        { sampleUser "alice" 5 with ID := sampleEnv.newObjectID 0, UUID := ⟨"bb"⟩,
                                    Password := "$2a$10$" }
      = .error (.other "connection timed out") ∧
    (Register sampleEnv sampleCodes ⟨unreachableStore, 0⟩ (sampleUser "alice" 5)).1 =
      ⟨none, some (Wrap "connection timed out"
          "Registration: Error inserting user into Database"),
        sampleCodes.UsernameExistsError⟩ ∧
    sampleCodes.UsernameExistsError ≠ sampleCodes.InternalError :=
  ⟨rfl, Register_insert_failure_code sampleEnv sampleCodes ⟨unreachableStore, 0⟩
      (sampleUser "alice" 5) ⟨"bb"⟩ "$2a$10$" (.other "connection timed out") rfl rfl rfl,
    by decide⟩

/-- On success `Register` hands back the record it inserted with the password
cleared; the world then holds that record. -/
theorem Register_ok (env : Env) (ec : ErrorCodes) (w : World) (user : User)
    (uid : UUID) (hashedPass : String) (c : Collection)
    (huuid : env.newV4 (w.clock + 1) = .ok uid)
    (hhash : env.generateFromPassword user.Password 10 = .ok hashedPass)
    (hins : w.collection.InsertOne
      { user with ID := env.newObjectID w.clock, UUID := uid, Password := hashedPass }
        = .ok c) :
    Register env ec w user =
      (⟨some { user with ID := env.newObjectID w.clock, UUID := uid, Password := "" },
          none, 0⟩,
        { collection := c, clock := w.clock + 2 }) := by
  simp only [Register, huuid, hhash, hins]

/-- A successful `InsertOne` appends exactly the given record. -/
theorem InsertOne_ok_docs (c c1 : Collection) (u : User) (h : c.InsertOne u = .ok c1) :
    c1.docs = c.docs ++ [u] ∧ c1.fault = c.fault := by
  unfold Collection.InsertOne at h
  split at h
  · cases h
  · split at h
    · cases h
    · split at h
      · cases h
      · split at h
        · cases h
        · cases h
          exact ⟨rfl, rfl⟩

/-- Whatever `Register` returns as the user has the version it was given. -/
theorem Register_user_version (env : Env) (ec : ErrorCodes) (w : World) (user authUser : User)
    (h : (Register env ec w user).1.user = some authUser) :
    authUser.Version = user.Version := by
  unfold Register at h
  simp only at h
  split at h
  · cases h
  · split at h
    · cases h
    · split at h
      · cases h
      · cases h
        rfl

/-- Claim C6: when UUID generation, hashing and the insert all succeed,
the record appended to the store carries the hash of the supplied password
in its password field (so not the plaintext, whenever the hash differs from
it), and `Register` returns, with no error and error code 0, a user with an
empty password whose email, names, username, role and version are those of
the input. -/
theorem Register_success (env : Env) (ec : ErrorCodes) (w : World) (user : User)
    (uid : UUID) (hashedPass : String) (c : Collection)
    (huuid : env.newV4 (w.clock + 1) = .ok uid)
    (hhash : env.generateFromPassword user.Password 10 = .ok hashedPass)
    (hins : w.collection.InsertOne
      { user with ID := env.newObjectID w.clock, UUID := uid, Password := hashedPass }
        = .ok c) :
    ∃ stored returned : User,
      Register env ec w user = (⟨some returned, none, 0⟩, { collection := c, clock := w.clock + 2 }) ∧
      c.docs = w.collection.docs ++ [stored] ∧
      stored.Password = hashedPass ∧
      (hashedPass ≠ user.Password → stored.Password ≠ user.Password) ∧
      returned.Password = "" ∧
      returned.Email = user.Email ∧ returned.FirstName = user.FirstName ∧
      returned.LastName = user.LastName ∧ returned.Username = user.Username ∧
      returned.Role = user.Role ∧ returned.Version = user.Version ∧
      stored.Email = user.Email ∧ stored.FirstName = user.FirstName ∧
      stored.LastName = user.LastName ∧ stored.Username = user.Username ∧
      stored.Role = user.Role ∧ stored.Version = user.Version ∧
      stored.ID = returned.ID ∧ stored.UUID = returned.UUID := by
  refine ⟨{ user with ID := env.newObjectID w.clock, UUID := uid, Password := hashedPass },
    { user with ID := env.newObjectID w.clock, UUID := uid, Password := "" },
    Register_ok env ec w user uid hashedPass c huuid hhash hins,
    (InsertOne_ok_docs _ _ _ hins).1, rfl, fun h => h, rfl, rfl, rfl, rfl, rfl, rfl, rfl,
    rfl, rfl, rfl, rfl, rfl, rfl, rfl, rfl⟩

/-- Witness for C6: registering a user with password `secret` in an empty
store. -/
theorem Register_success_witness :
    ∃ stored returned : User,
      Register sampleEnv sampleCodes ⟨emptyStore, 0⟩
          { sampleUser "alice" 5 with Password := "secret" } =
        (⟨some returned, none, 0⟩,
          { collection :=
              { docs := [{ sampleUser "alice" 5 with ID := ⟨"a"⟩, UUID := ⟨"bb"⟩,
                                                     Password := "$2a$10$secret" }],
                fault := none },
            clock := 0 + 2 }) ∧
      ([{ sampleUser "alice" 5 with ID := ⟨"a"⟩, UUID := ⟨"bb"⟩,
                                    Password := "$2a$10$secret" }] : List User)
        = emptyStore.docs ++ [stored] ∧
      stored.Password = "$2a$10$secret" ∧
      ("$2a$10$secret" ≠ "secret" → stored.Password ≠ "secret") ∧
      returned.Password = "" ∧
      returned.Email = "" ∧ returned.FirstName = "" ∧
      returned.LastName = "" ∧ returned.Username = "alice" ∧
      returned.Role = "" ∧ returned.Version = 5 ∧
      stored.Email = "" ∧ stored.FirstName = "" ∧
      stored.LastName = "" ∧ stored.Username = "alice" ∧
      stored.Role = "" ∧ stored.Version = 5 ∧
      stored.ID = returned.ID ∧ stored.UUID = returned.UUID :=
  Register_success sampleEnv sampleCodes ⟨emptyStore, 0⟩
    { sampleUser "alice" 5 with Password := "secret" } ⟨"bb"⟩ "$2a$10$secret"
    { docs := [{ sampleUser "alice" 5 with ID := ⟨"a"⟩, UUID := ⟨"bb"⟩,
                                           Password := "$2a$10$secret" }],
      fault := none }
    rfl rfl rfl

/-! ## Marshalling -/

theorem lookup_cons_ne {β : Type} (key k : String) (v : β) (rest : List (String × β))
    (h : (key == k) = false) : ((k, v) :: rest).lookup key = rest.lookup key := by
  simp [List.lookup, h]

theorem lookup_omitemptyString_append (key k s : String) (rest : List (String × BSONValue))
    (h : (key == k) = false) :
    (omitemptyString k s ++ rest).lookup key = rest.lookup key := by
  unfold omitemptyString
  split
  · rfl
  · simp [List.lookup, h]

theorem lookup_omitemptyInt64 (key k : String) (n : Int) (h : (key == k) = false) :
    (omitemptyInt64 k n).lookup key = none := by
  unfold omitemptyInt64
  split
  · rfl
  · simp [List.lookup, h]

/-- Claim C5: the `marshalUser` built by `MarshalBSON` carries the user's
password, and so does the password field of the encoded document; the
map encoded by `MarshalJSON` has no `password` key, and neither the map nor
the bytes produced from it change when only the password of the user changes. -/
theorem password_internal_only (env : Env) (u : User) :
    (MarshalBSON_mu u).Password = u.Password ∧
    bsonStringField (MarshalBSON u) "password" = u.Password ∧
    (u.Password ≠ "" → (MarshalBSON u).lookup "password" = some (.string u.Password)) ∧
    (MarshalJSON_map u).lookup "password" = none ∧
    (∀ key ∈ (MarshalJSON_map u).map Prod.fst, key ≠ "password") ∧
    (∀ p : String, MarshalJSON_map { u with Password := p } = MarshalJSON_map u) ∧
    (∀ p : String, MarshalJSON env { u with Password := p } = MarshalJSON env u) := by
  have hmu : (MarshalBSON_mu u).Password = u.Password := by
    unfold MarshalBSON_mu
    simp only
    split <;> rfl
  have hdoc : (MarshalBSON u).lookup "password" =
      if u.Password = "" then none else some (.string u.Password) := by
    unfold MarshalBSON bsonMarshal
    rw [hmu]
    simp only [List.append_assoc, List.singleton_append, List.cons_append]
    rw [lookup_cons_ne "password" "_id" _ _ (by decide), List.nil_append,
      lookup_omitemptyString_append "password" "uuid" _ _ (by decide),
      lookup_omitemptyString_append "password" "email" _ _ (by decide),
      lookup_omitemptyString_append "password" "first_name" _ _ (by decide),
      lookup_omitemptyString_append "password" "last_name" _ _ (by decide),
      lookup_omitemptyString_append "password" "username" _ _ (by decide)]
    by_cases h6 : u.Password = ""
    · rw [if_pos h6, h6]
      show (([] : List (String × BSONValue)) ++ _).lookup "password" = none
      rw [List.nil_append, lookup_omitemptyString_append "password" "role" _ _ (by decide),
        lookup_omitemptyInt64 "password" "version" _ (by decide)]
    · rw [if_neg h6]
      unfold omitemptyString
      rw [if_neg h6]
      simp [List.lookup]
  refine ⟨hmu, ?_, ?_, ?_, ?_, ?_, ?_⟩
  · unfold bsonStringField
    rw [hdoc]
    by_cases h : u.Password = ""
    · simp [h]
    · simp [h]
  · intro h
    rw [hdoc, if_neg h]
  · simp [MarshalJSON_map, List.lookup]
  · intro key hkey
    simp only [MarshalJSON_map, List.map, List.mem_cons, List.mem_singleton,
      List.not_mem_nil, or_false] at hkey
    rcases hkey with h | h | h | h | h | h | h | h <;> (rw [h]; decide)
  · intro p
    rfl
  · intro p
    rfl

/-! ## `handleEvents` -/

/-- The implementation `DB` never takes the error return of `GetMaxVersion`. -/
theorem GetMaxVersion_no_error (c : Collection) : (GetMaxVersion c).2 = none := by
  unfold GetMaxVersion
  cases c.FindOne <;> rfl

/-- Claim C3: a message that decodes to an event with aggregate
discriminator 1 makes `handleEvents` send exactly one query, carrying the
event's correlation identifier and the version `GetMaxVersion` returned, and no
outcome message. This holds for every `DBI` whose `GetMaxVersion` returns a
version, and for the implementation `DB` over any store, where the version is
the one `GetMaxVersion` computes, namely 1 when the store is empty. -/
theorem handleEvents_emits_one_query (env : Env) (codec : Codec) (ec : ErrorCodes) (w : World)
    (msg : ConsumerMessage) (event : Event)
    (hdec : codec.unmarshalEvent msg.Value = .ok event)
    (hagg : event.AggregateID = 1) :
    (∀ (db : DBI) (currVersion : Int), db.GetMaxVersion w = (currVersion, none) →
      (handleEvents codec ec db w msg).queries =
        [{ AggregateID := 1, CorrelationID := event.CorrelationID,
           AggregateVersion := currVersion, YearBucket := 2018 }] ∧
      (handleEvents codec ec db w msg).outcomes = [] ∧
      (handleEvents codec ec db w msg).offsets = [msg]) ∧
    (handleEvents codec ec (DB env ec) w msg).queries =
      [{ AggregateID := 1, CorrelationID := event.CorrelationID,
         AggregateVersion := (GetMaxVersion w.collection).1, YearBucket := 2018 }] ∧
    (handleEvents codec ec (DB env ec) w msg).outcomes = [] ∧
    (w.collection.docs = [] →
      (handleEvents codec ec (DB env ec) w msg).queries =
        [{ AggregateID := 1, CorrelationID := event.CorrelationID,
           AggregateVersion := 1, YearBucket := 2018 }]) := by
  have hgen : ∀ (db : DBI) (currVersion : Int), db.GetMaxVersion w = (currVersion, none) →
      handleEvents codec ec db w msg =
        { Run.idle w with
          offsets := [msg]
          queries := [{ AggregateID := 1, CorrelationID := event.CorrelationID,
                        AggregateVersion := currVersion, YearBucket := 2018 }] } := by
    intro db currVersion hver
    simp only [handleEvents, hdec, hagg, hver, if_true]
  have hdb : (DB env ec).GetMaxVersion w = ((GetMaxVersion w.collection).1, none) := by
    show GetMaxVersion w.collection = ((GetMaxVersion w.collection).1, none)
    have h2 := GetMaxVersion_no_error w.collection
    cases hg : GetMaxVersion w.collection with
    | mk v e =>
      rw [hg] at h2
      simp only at h2
      rw [h2]
  refine ⟨?_, ?_, ?_, ?_⟩
  · intro db currVersion hver
    rw [hgen db currVersion hver]
    exact ⟨rfl, rfl, rfl⟩
  · rw [hgen _ _ hdb]
  · rw [hgen _ _ hdb]
    rfl
  · intro hempty
    rw [hgen _ _ hdb]
    have h1 : GetMaxVersion w.collection = (1, none) :=
      (GetMaxVersion_fallback w.collection) (by
        intro u hu
        rw [hempty] at hu
        exact absurd hu (List.not_mem_nil _))
    rw [h1]

/-- Witness for C3: the event with discriminator 1, correlation identifier
`c1` and version 0, handled over an empty store. -/
theorem handleEvents_emits_one_query_witness :
    (handleEvents sampleCodec sampleCodes (DB sampleEnv sampleCodes) ⟨emptyStore, 0⟩
        (sampleMessage [1, 0])).queries =
      [{ AggregateID := 1, CorrelationID := ⟨"c1"⟩, AggregateVersion := 1,
         YearBucket := 2018 }] :=
  (handleEvents_emits_one_query sampleEnv sampleCodec sampleCodes ⟨emptyStore, 0⟩
    (sampleMessage [1, 0])
    { AggregateID := 1, CorrelationID := ⟨"c1"⟩, Data := [], UUID := ⟨"e1"⟩, Version := 0 }
    rfl rfl).2.2.2 rfl

/-- Claim C9: when the event has discriminator 1 and `GetMaxVersion` returns
an error, `handleEvents` sends exactly one outcome message, with error code
`InternalError`, aggregate discriminator 1 and the event's correlation
identifier, and sends no query. -/
theorem handleEvents_max_version_failure (codec : Codec) (ec : ErrorCodes) (db : DBI)
    (w : World) (msg : ConsumerMessage) (event : Event) (v : Int) (err : String)
    (hdec : codec.unmarshalEvent msg.Value = .ok event)
    (hagg : event.AggregateID = 1)
    (hver : db.GetMaxVersion w = (v, some err)) :
    (handleEvents codec ec db w msg).outcomes =
      [{ AggregateID := 1, CorrelationID := event.CorrelationID,
         Error := Wrap err "Error fetching max version",
         ErrorCode := ec.InternalError, Result := [] }] ∧
    (handleEvents codec ec db w msg).queries = [] := by
  simp only [handleEvents, hdec, hagg, hver, if_true, Run.idle, and_self]

/-- Witness for C9: a `DBI` whose `GetMaxVersion` fails. -/
theorem handleEvents_max_version_failure_witness :
    (handleEvents sampleCodec sampleCodes failingDB ⟨emptyStore, 0⟩
        (sampleMessage [1, 0])).outcomes =
      [{ AggregateID := 1, CorrelationID := ⟨"c1"⟩,
         Error := Wrap "GetMaxVersion Error: Unable to convert result to User"
           "Error fetching max version",
         ErrorCode := sampleCodes.InternalError, Result := [] }] ∧
    (handleEvents sampleCodec sampleCodes failingDB ⟨emptyStore, 0⟩
        (sampleMessage [1, 0])).queries = [] :=
  handleEvents_max_version_failure sampleCodec sampleCodes failingDB ⟨emptyStore, 0⟩
    (sampleMessage [1, 0])
    { AggregateID := 1, CorrelationID := ⟨"c1"⟩, Data := [], UUID := ⟨"e1"⟩, Version := 0 }
    (-1) "GetMaxVersion Error: Unable to convert result to User" rfl rfl rfl

/-! ## `handleESQueryResponse` -/

/-- Claim C8, as amended: a response whose aggregate discriminator is not 1
makes `handleESQueryResponse` do nothing at all: no outcome message, no
`Register` call, the world unchanged, and no offset acknowledged. -/
theorem handleESQueryResponse_other_discriminator (env : Env) (codec : Codec)
    (ec : ErrorCodes) (db : DBI) (w : World) (msg : ConsumerMessage) (kr : KafkaResponse)
    (hdec : codec.unmarshalKafkaResponse msg.Value = .ok kr)
    (hagg : kr.AggregateID ≠ 1) :
    (handleESQueryResponse env codec ec db w msg).outcomes = [] ∧
    (handleESQueryResponse env codec ec db w msg).registerCalls = [] ∧
    (handleESQueryResponse env codec ec db w msg).world = w ∧
    (handleESQueryResponse env codec ec db w msg).offsets = [] := by
  simp only [handleESQueryResponse, hdec, hagg, if_false, Run.idle, and_self]

/-- Witness for C8: a response with discriminator 2. -/
theorem handleESQueryResponse_other_discriminator_witness :
    (handleESQueryResponse sampleEnv sampleCodec sampleCodes (DB sampleEnv sampleCodes)
        ⟨emptyStore, 0⟩ (sampleMessage [2, 1])).outcomes = [] ∧
    (handleESQueryResponse sampleEnv sampleCodec sampleCodes (DB sampleEnv sampleCodes)
        ⟨emptyStore, 0⟩ (sampleMessage [2, 1])).registerCalls = [] ∧
    (handleESQueryResponse sampleEnv sampleCodec sampleCodes (DB sampleEnv sampleCodes)
        ⟨emptyStore, 0⟩ (sampleMessage [2, 1])).world = ⟨emptyStore, 0⟩ ∧
    (handleESQueryResponse sampleEnv sampleCodec sampleCodes (DB sampleEnv sampleCodes)
        ⟨emptyStore, 0⟩ (sampleMessage [2, 1])).offsets = [] :=
  handleESQueryResponse_other_discriminator sampleEnv sampleCodec sampleCodes
    (DB sampleEnv sampleCodes) ⟨emptyStore, 0⟩ (sampleMessage [2, 1])
    { AggregateID := 2, CorrelationID := ⟨"k1"⟩, Error := "", ErrorCode := 0, Result := [1] }
    rfl (by decide)

/-- Counterexample to C8 as stated: the response `[3]` decodes to an envelope
with discriminator 3; its offset is not sent to the offset-mark sink, whereas
the offset of the response `[1]`, with discriminator 1, is. -/
theorem handleESQueryResponse_offset_not_marked :
    sampleCodec.unmarshalKafkaResponse (sampleMessage [3]).Value =
      .ok { AggregateID := 3, CorrelationID := ⟨"k1"⟩, Error := "", ErrorCode := 0,
            Result := [] } ∧
    (handleESQueryResponse sampleEnv sampleCodec sampleCodes (DB sampleEnv sampleCodes)
        ⟨emptyStore, 0⟩ (sampleMessage [3])).offsets = [] ∧
    (handleESQueryResponse sampleEnv sampleCodec sampleCodes (DB sampleEnv sampleCodes)
        ⟨emptyStore, 0⟩ (sampleMessage [1])).offsets = [sampleMessage [1]] := by
  refine ⟨rfl, ?_, ?_⟩ <;> rfl

/-- With no `uuid` and no string member present, the seven steps of
`UnmarshalJSON` before the `version` step leave the user as it is. -/
theorem UnmarshalJSON_fields_of_absent (env : Env) (id : ObjectID)
    (m : List (String × JSONValue)) (u : User)
    (hkeys : ∀ key ∈ ["uuid", "email", "firstName", "lastName", "username", "password",
      "role"], (mapIndex m key).isNil = true) :
    UnmarshalJSON_fields env id m u = setVersionField m { u with ID := id } := by
  have h1 := hkeys "uuid" (by simp)
  have h2 := hkeys "email" (by simp)
  have h3 := hkeys "firstName" (by simp)
  have h4 := hkeys "lastName" (by simp)
  have h5 := hkeys "username" (by simp)
  have h6 := hkeys "password" (by simp)
  have h7 := hkeys "role" (by simp)
  simp only [UnmarshalJSON_fields, setUUIDField, setStringField, h1, h2, h3, h4, h5, h6, h7,
    if_true, Result.bind]

/-- A payload whose decoded object has a `version` that is present and not
null never makes `UnmarshalJSON` succeed, whatever else the object holds. -/
theorem UnmarshalJSON_not_ok_of_version (env : Env) (clock : Nat) (input : Bytes)
    (m : List (String × JSONValue))
    (hdec : env.jsonUnmarshalMap input = .ok m)
    (hver : (mapIndex m "version").isNil = false) (user : User) :
    (UnmarshalJSON env clock User.zero input).1 ≠ .ok user := by
  unfold UnmarshalJSON
  rw [hdec]
  simp only
  unfold UnmarshalJSON_fields
  generalize (((((((setUUIDField env m _).bind _).bind _).bind _).bind _).bind _).bind _) = r
  cases r <;> simp [Result.bind, setVersionField, hver, assertInt64]

/-- Claim C10: a payload that decodes to a JSON object whose `version` is
present and not null (here with no other known member) makes
`User.UnmarshalJSON` panic instead of returning, and the loop body of
`handleESQueryResponse` then ends in that panic without sending any outcome
message for the event. -/
theorem UnmarshalJSON_version_panics (env : Env) (clock : Nat) (input : Bytes)
    (m : List (String × JSONValue))
    (hdec : env.jsonUnmarshalMap input = .ok m)
    (hkeys : ∀ key ∈ ["uuid", "email", "firstName", "lastName", "username", "password",
      "role"], (mapIndex m key).isNil = true)
    (hver : (mapIndex m "version").isNil = false) :
    UnmarshalJSON env clock User.zero input =
      (.panic ("interface conversion: interface \x7b\x7d is "
          ++ goTypeName (mapIndex m "version") ++ ", not int64"), clock + 1) ∧
    ∀ (ec : ErrorCodes) (db : DBI) (w : World) (event : Event),
      event.Data = input → w.clock = clock →
      (handleESQueryResponse_event env ec db w event).outcome = none ∧
      (handleESQueryResponse_event env ec db w event).registerCall = none ∧
      (handleESQueryResponse_event env ec db w event).panicked =
        some ("interface conversion: interface \x7b\x7d is "
          ++ goTypeName (mapIndex m "version") ++ ", not int64") := by
  have hun : ∀ c : Nat, UnmarshalJSON env c User.zero input =
      (.panic ("interface conversion: interface \x7b\x7d is "
          ++ goTypeName (mapIndex m "version") ++ ", not int64"), c + 1) := by
    intro c
    unfold UnmarshalJSON
    rw [hdec]
    simp only [UnmarshalJSON_fields_of_absent env _ m _ hkeys, setVersionField, hver,
      assertInt64]
    rfl
  refine ⟨hun clock, ?_⟩
  intro ec db w event hdata hclock
  unfold handleESQueryResponse_event
  rw [hdata, hun w.clock]
  exact ⟨rfl, rfl, rfl⟩

/-- Witness for C10: the payload `[2]`, an object whose only member is
`version` with the number 5. -/
theorem UnmarshalJSON_version_panics_witness :
    UnmarshalJSON sampleEnv 0 User.zero [2] =
      (.panic "interface conversion: interface \x7b\x7d is float64, not int64", 0 + 1) ∧
    ∀ (ec : ErrorCodes) (db : DBI) (w : World) (event : Event),
      event.Data = [2] → w.clock = 0 →
      (handleESQueryResponse_event sampleEnv ec db w event).outcome = none ∧
      (handleESQueryResponse_event sampleEnv ec db w event).registerCall = none ∧
      (handleESQueryResponse_event sampleEnv ec db w event).panicked =
        some "interface conversion: interface \x7b\x7d is float64, not int64" :=
  UnmarshalJSON_version_panics sampleEnv 0 [2] [("version", .float64 5 0)] rfl
    (by decide) rfl

/-- An iteration of the loop that does not panic sends exactly one outcome
message, with aggregate discriminator 1 and the event's correlation identifier. -/
theorem handleESQueryResponse_event_outcome (env : Env) (ec : ErrorCodes) (db : DBI)
    (w : World) (event : Event)
    (h : (handleESQueryResponse_event env ec db w event).panicked = none) :
    ∃ o, (handleESQueryResponse_event env ec db w event).outcome = some o ∧
      o.AggregateID = 1 ∧ o.CorrelationID = event.CorrelationID := by
  unfold handleESQueryResponse_event at h ⊢
  split
  · rename_i heq
    rw [heq] at h
    simp at h
  · exact ⟨_, rfl, rfl, rfl⟩
  · simp only
    split
    · exact ⟨_, rfl, rfl, rfl⟩
    · split
      · exact ⟨_, rfl, rfl, rfl⟩
      · exact ⟨_, rfl, rfl, rfl⟩

/-- An iteration of the loop panics exactly when decoding the payload does. -/
theorem handleESQueryResponse_event_panicked (env : Env) (ec : ErrorCodes) (db : DBI)
    (w : World) (event : Event)
    (h : ∀ p, (UnmarshalJSON env w.clock User.zero event.Data).1 ≠ .panic p) :
    (handleESQueryResponse_event env ec db w event).panicked = none := by
  unfold handleESQueryResponse_event
  split
  · rename_i p clock heq
    exact absurd (by rw [heq]) (h p)
  · rfl
  · simp only
    split
    · rfl
    · split <;> rfl

/-- Over events whose payloads do not make `UnmarshalJSON` panic, the loop
sends one outcome message per event, in order, each with aggregate
discriminator 1 and the correlation identifier of its event, and does not
panic; the offsets and queries of the run are left as they were. -/
theorem handleESQueryResponse_loop_no_panic (env : Env) (ec : ErrorCodes) (db : DBI)
    (events : List Event)
    (h : ∀ e ∈ events, ∀ clock p, (UnmarshalJSON env clock User.zero e.Data).1 ≠ .panic p) :
    ∀ r : Run, r.panicked = none →
      ∃ outs : List KafkaResponse,
        (handleESQueryResponse_loop env ec db events r).outcomes = r.outcomes ++ outs ∧
        outs.map (fun o => o.CorrelationID) = events.map (fun e => e.CorrelationID) ∧
        (∀ o ∈ outs, o.AggregateID = 1) ∧
        (handleESQueryResponse_loop env ec db events r).panicked = none ∧
        (handleESQueryResponse_loop env ec db events r).offsets = r.offsets ∧
        (handleESQueryResponse_loop env ec db events r).queries = r.queries := by
  induction events with
  | nil =>
    intro r hr
    exact ⟨[], by simp [handleESQueryResponse_loop], rfl, by simp, hr, rfl, rfl⟩
  | cons e rest ih =>
    intro r hr
    have hstep := handleESQueryResponse_event_panicked env ec db r.world e
      (fun p => h e (List.mem_cons_self _ _) r.world.clock p)
    obtain ⟨o, ho, hagg, hcorr⟩ := handleESQueryResponse_event_outcome env ec db r.world e hstep
    obtain ⟨outs, h1, h2, h3, h4, h5, h6⟩ :=
      ih (fun x hx => h x (List.mem_cons_of_mem _ hx))
        { r with
          world := (handleESQueryResponse_event env ec db r.world e).world
          outcomes := r.outcomes ++ [o]
          registerCalls := r.registerCalls ++
            (handleESQueryResponse_event env ec db r.world e).registerCall.toList
          panicked := none } rfl
    have hunfold : handleESQueryResponse_loop env ec db (e :: rest) r =
        handleESQueryResponse_loop env ec db rest
          { r with
            world := (handleESQueryResponse_event env ec db r.world e).world
            outcomes := r.outcomes ++ [o]
            registerCalls := r.registerCalls ++
              (handleESQueryResponse_event env ec db r.world e).registerCall.toList
            panicked := none } := by
      rw [handleESQueryResponse_loop]
      simp only [hstep, ho, Option.toList]
    rw [hunfold]
    refine ⟨o :: outs, ?_, ?_, ?_, h4, h5, h6⟩
    · rw [h1]
      simp
    · simp [h2, hcorr]
    · intro x hx
      rcases List.mem_cons.1 hx with rfl | hx
      · exact hagg
      · exact h3 x hx

/-- The loop stops at the first event whose payload makes `UnmarshalJSON`
panic: the events before it have their outcome messages sent, the panicking
event and all events after it have none. -/
theorem handleESQueryResponse_loop_panic (env : Env) (ec : ErrorCodes) (db : DBI)
    (pre : List Event) (bad : Event) (post : List Event) (p : String)
    (hpre : ∀ e ∈ pre, ∀ clock p, (UnmarshalJSON env clock User.zero e.Data).1 ≠ .panic p)
    (hbad : ∀ clock, (UnmarshalJSON env clock User.zero bad.Data).1 = .panic p) :
    ∀ r : Run, r.panicked = none →
      ∃ outs : List KafkaResponse,
        (handleESQueryResponse_loop env ec db (pre ++ bad :: post) r).outcomes
          = r.outcomes ++ outs ∧
        outs.map (fun o => o.CorrelationID) = pre.map (fun e => e.CorrelationID) ∧
        (handleESQueryResponse_loop env ec db (pre ++ bad :: post) r).panicked = some p := by
  induction pre with
  | nil =>
    intro r _
    have hstep : handleESQueryResponse_event env ec db r.world bad =
        { world := { r.world with
                     clock := (UnmarshalJSON env r.world.clock User.zero bad.Data).2 }
          outcome := none, registerCall := none, panicked := some p } := by
      have hb := hbad r.world.clock
      unfold handleESQueryResponse_event
      split
      · rename_i q clock heq
        rw [heq] at hb ⊢
        simp only [Result.panic.injEq] at hb
        rw [hb]
      · rename_i heq
        rw [heq] at hb
        cases hb
      · rename_i heq
        rw [heq] at hb
        cases hb
    refine ⟨[], ?_, rfl, ?_⟩
    · rw [List.nil_append, handleESQueryResponse_loop]
      simp [hstep]
    · rw [List.nil_append, handleESQueryResponse_loop]
      simp [hstep]
  | cons e rest ih =>
    intro r _
    have hstep := handleESQueryResponse_event_panicked env ec db r.world e
      (fun p => hpre e (List.mem_cons_self _ _) r.world.clock p)
    obtain ⟨o, ho, _, hcorr⟩ := handleESQueryResponse_event_outcome env ec db r.world e hstep
    obtain ⟨outs, h1, h2, h3⟩ :=
      ih (fun x hx => hpre x (List.mem_cons_of_mem _ hx))
        { r with
          world := (handleESQueryResponse_event env ec db r.world e).world
          outcomes := r.outcomes ++ [o]
          registerCalls := r.registerCalls ++
            (handleESQueryResponse_event env ec db r.world e).registerCall.toList
          panicked := none } rfl
    have hunfold : handleESQueryResponse_loop env ec db (e :: rest ++ bad :: post) r =
        handleESQueryResponse_loop env ec db (rest ++ bad :: post)
          { r with
            world := (handleESQueryResponse_event env ec db r.world e).world
            outcomes := r.outcomes ++ [o]
            registerCalls := r.registerCalls ++
              (handleESQueryResponse_event env ec db r.world e).registerCall.toList
            panicked := none } := by
      rw [List.cons_append, handleESQueryResponse_loop]
      simp only [hstep, ho, Option.toList]
    rw [hunfold]
    refine ⟨o :: outs, ?_, ?_, h3⟩
    · rw [h1]
      simp
    · simp [h2, hcorr]

/-- When no payload of the batch makes `UnmarshalJSON` panic, a response with
discriminator 1 carrying `n` events yields `n` outcome messages, the i-th with
the correlation identifier of the i-th event and aggregate discriminator 1,
and the message's offset is acknowledged. -/
theorem handleESQueryResponse_outcomes_without_panic (env : Env) (codec : Codec)
    (ec : ErrorCodes) (db : DBI) (w : World) (msg : ConsumerMessage) (kr : KafkaResponse)
    (events : List Event)
    (hdec : codec.unmarshalKafkaResponse msg.Value = .ok kr)
    (hagg : kr.AggregateID = 1)
    (hevents : codec.unmarshalEvents kr.Result = .ok events)
    (h : ∀ e ∈ events, ∀ clock p, (UnmarshalJSON env clock User.zero e.Data).1 ≠ .panic p) :
    (handleESQueryResponse env codec ec db w msg).outcomes.length = events.length ∧
    (handleESQueryResponse env codec ec db w msg).outcomes.map (fun o => o.CorrelationID)
      = events.map (fun e => e.CorrelationID) ∧
    (∀ o ∈ (handleESQueryResponse env codec ec db w msg).outcomes, o.AggregateID = 1) ∧
    (handleESQueryResponse env codec ec db w msg).panicked = none ∧
    (handleESQueryResponse env codec ec db w msg).offsets = [msg] := by
  obtain ⟨outs, h1, h2, h3, h4, h5, _⟩ :=
    handleESQueryResponse_loop_no_panic env ec db events h
      { Run.idle w with offsets := [msg] } rfl
  have hrun : handleESQueryResponse env codec ec db w msg =
      handleESQueryResponse_loop env ec db events { Run.idle w with offsets := [msg] } := by
    simp only [handleESQueryResponse, hdec, hagg, hevents, if_true]
  rw [hrun, h1]
  have hout : (({ Run.idle w with offsets := [msg] } : Run).outcomes ++ outs) = outs := rfl
  rw [hout]
  refine ⟨?_, h2, h3, h4, h5⟩
  have := congrArg List.length h2
  simpa using this

/-- Claim C4, on the code: in a response with discriminator 1 whose result
decodes to the events `pre ++ bad :: post`, where the payload of `bad` makes
`UnmarshalJSON` panic and those of `pre` do not, only the events of `pre` get
an outcome message: the run ends in the panic, with fewer outcome messages
than events, none for `bad` and none for the events of `post`. -/
theorem handleESQueryResponse_batch_stops_at_panic (env : Env) (codec : Codec)
    (ec : ErrorCodes) (db : DBI) (w : World) (msg : ConsumerMessage) (kr : KafkaResponse)
    (pre : List Event) (bad : Event) (post : List Event) (p : String)
    (hdec : codec.unmarshalKafkaResponse msg.Value = .ok kr)
    (hagg : kr.AggregateID = 1)
    (hevents : codec.unmarshalEvents kr.Result = .ok (pre ++ bad :: post))
    (hpre : ∀ e ∈ pre, ∀ clock p, (UnmarshalJSON env clock User.zero e.Data).1 ≠ .panic p)
    (hbad : ∀ clock, (UnmarshalJSON env clock User.zero bad.Data).1 = .panic p) :
    (handleESQueryResponse env codec ec db w msg).outcomes.map (fun o => o.CorrelationID)
      = pre.map (fun e => e.CorrelationID) ∧
    (handleESQueryResponse env codec ec db w msg).outcomes.length = pre.length ∧
    (handleESQueryResponse env codec ec db w msg).outcomes.length
      < (pre ++ bad :: post).length ∧
    (handleESQueryResponse env codec ec db w msg).panicked = some p := by
  obtain ⟨outs, h1, h2, h3⟩ :=
    handleESQueryResponse_loop_panic env ec db pre bad post p hpre hbad
      { Run.idle w with offsets := [msg] } rfl
  have hrun : handleESQueryResponse env codec ec db w msg =
      handleESQueryResponse_loop env ec db (pre ++ bad :: post)
        { Run.idle w with offsets := [msg] } := by
    simp only [handleESQueryResponse, hdec, hagg, hevents, if_true]
  rw [hrun, h1]
  have hout : (({ Run.idle w with offsets := [msg] } : Run).outcomes ++ outs) = outs := rfl
  rw [hout]
  have hlen : outs.length = pre.length := by
    have := congrArg List.length h2
    simpa using this
  refine ⟨h2, hlen, ?_, h3⟩
  rw [hlen, List.length_append, List.length_cons]
  omega

/-- Witness for C4: a batch of three events with payloads `[1]`, `[2]`, `[1]`;
the second payload has a numeric `version`. One outcome message is sent, for
the first event, and the run ends in a panic. -/
theorem handleESQueryResponse_batch_stops_at_panic_witness :
    (handleESQueryResponse sampleEnv sampleCodec sampleCodes (DB sampleEnv sampleCodes)
        ⟨emptyStore, 0⟩ (sampleMessage [1, 1, 2, 1])).outcomes.map (fun o => o.CorrelationID)
      = [⟨"c"⟩] ∧
    (handleESQueryResponse sampleEnv sampleCodec sampleCodes (DB sampleEnv sampleCodes)
        ⟨emptyStore, 0⟩ (sampleMessage [1, 1, 2, 1])).outcomes.length = 1 ∧
    (handleESQueryResponse sampleEnv sampleCodec sampleCodes (DB sampleEnv sampleCodes)
        ⟨emptyStore, 0⟩ (sampleMessage [1, 1, 2, 1])).outcomes.length < 3 ∧
    (handleESQueryResponse sampleEnv sampleCodec sampleCodes (DB sampleEnv sampleCodes)
        ⟨emptyStore, 0⟩ (sampleMessage [1, 1, 2, 1])).panicked =
      some "interface conversion: interface \x7b\x7d is float64, not int64" :=
  handleESQueryResponse_batch_stops_at_panic sampleEnv sampleCodec sampleCodes
    (DB sampleEnv sampleCodes) ⟨emptyStore, 0⟩ (sampleMessage [1, 1, 2, 1])
    { AggregateID := 1, CorrelationID := ⟨"k1"⟩, Error := "", ErrorCode := 0,
      Result := [1, 2, 1] }
    [{ AggregateID := 1, CorrelationID := ⟨"c"⟩, Data := [1], UUID := ⟨"e1"⟩, Version := 5 }]
    { AggregateID := 1, CorrelationID := ⟨"cc"⟩, Data := [2], UUID := ⟨"e1"⟩, Version := 5 }
    [{ AggregateID := 1, CorrelationID := ⟨"c"⟩, Data := [1], UUID := ⟨"e1"⟩, Version := 5 }]
    "interface conversion: interface \x7b\x7d is float64, not int64"
    rfl rfl rfl
    (by
      intro e he clock p h
      rw [List.mem_singleton] at he
      subst he
      cases h)
    (fun _ => rfl)

/-- One iteration of the loop, for an event whose payload decodes to a draft
user: `Register` (of any `DBI`) is called with the draft whose `Version` is the
event's version; and with the implementation `DB`, when `Register` succeeds and
the returned user is encoded, the outcome message carries the event's
correlation identifier and that encoding, which is the encoding of a map whose
`version` is the event's version and which has no `password` key. -/
theorem handleESQueryResponse_event_version (env : Env) (ec : ErrorCodes) (w : World)
    (event : Event) (draft : User) (clock : Nat)
    (hdec : UnmarshalJSON env w.clock User.zero event.Data = (.ok draft, clock)) :
    (∀ db : DBI, (handleESQueryResponse_event env ec db w event).registerCall =
      some { draft with Version := event.Version }) ∧
    (∀ (authUser : User) (authUserBytes : Bytes),
      (Register env ec { w with clock := clock } { draft with Version := event.Version }).1
        = ⟨some authUser, none, 0⟩ →
      env.jsonMarshalMap (MarshalJSON_map authUser) = .ok authUserBytes →
      (handleESQueryResponse_event env ec (DB env ec) w event).outcome =
        some { AggregateID := 1, CorrelationID := event.CorrelationID, Error := "",
               ErrorCode := 0, Result := authUserBytes } ∧
      authUser.Version = event.Version ∧
      (MarshalJSON_map authUser).lookup "version" = some (.int64 event.Version) ∧
      (MarshalJSON_map authUser).lookup "password" = none) := by
  constructor
  · intro db
    unfold handleESQueryResponse_event
    rw [hdec]
    simp only
    split
    · rfl
    · split <;> rfl
  · intro authUser authUserBytes hreg hbytes
    have hver : authUser.Version = event.Version :=
      Register_user_version env ec { w with clock := clock }
        { draft with Version := event.Version } authUser (by rw [hreg])
    refine ⟨?_, hver, ?_, ?_⟩
    · unfold handleESQueryResponse_event
      rw [hdec]
      simp only [DB, hreg, jsonMarshalUser, MarshalJSON, hbytes]
    · simp [MarshalJSON_map, List.lookup, hver]
    · simp [MarshalJSON_map, List.lookup]

/-- Example of one iteration: the event of version 5 whose payload `[1]`
decodes to the draft of `alice` with password `secret`, over an empty store. -/
theorem handleESQueryResponse_event_version_witness :
    (handleESQueryResponse_event sampleEnv sampleCodes (DB sampleEnv sampleCodes)
        ⟨emptyStore, 0⟩
        { AggregateID := 1, CorrelationID := ⟨"c"⟩, Data := [1], UUID := ⟨"e1"⟩,
          Version := 5 }).registerCall =
      some { User.zero with ID := ⟨"a"⟩, Username := "alice", Email := "a@x.com",
                            Password := "secret", Version := 5 } ∧
    (handleESQueryResponse_event sampleEnv sampleCodes (DB sampleEnv sampleCodes)
        ⟨emptyStore, 0⟩
        { AggregateID := 1, CorrelationID := ⟨"c"⟩, Data := [1], UUID := ⟨"e1"⟩,
          Version := 5 }).outcome =
      some { AggregateID := 1, CorrelationID := ⟨"c"⟩, Error := "", ErrorCode := 0,
             Result := [2, 0, 0, 7, 5, 0, 3, 5] } ∧
    (MarshalJSON_map { User.zero with ID := ⟨"aa"⟩, UUID := ⟨"bbb"⟩, Username := "alice",
                                      Email := "a@x.com", Version := 5 }).lookup "version"
      = some (.int64 5) ∧
    (MarshalJSON_map { User.zero with ID := ⟨"aa"⟩, UUID := ⟨"bbb"⟩, Username := "alice",
                                      Email := "a@x.com", Version := 5 }).lookup "password"
      = none :=
  have h := handleESQueryResponse_event_version sampleEnv sampleCodes ⟨emptyStore, 0⟩
    { AggregateID := 1, CorrelationID := ⟨"c"⟩, Data := [1], UUID := ⟨"e1"⟩, Version := 5 }
    { User.zero with ID := ⟨"a"⟩, Username := "alice", Email := "a@x.com",
                     Password := "secret" } 1 rfl
  have h2 := h.2
    { User.zero with ID := ⟨"aa"⟩, UUID := ⟨"bbb"⟩, Username := "alice",
                     Email := "a@x.com", Version := 5 }
    [2, 0, 0, 7, 5, 0, 3, 5] rfl rfl
  ⟨h.1 (DB sampleEnv sampleCodes), h2.1, h2.2.2.1, h2.2.2.2⟩

/-- One iteration of the loop, for an event whose payload decodes to a draft
user, in terms of what `Register` of the given `DBI` returns: the iteration
leaves the world `Register` returned, and its outcome message is built from the
error, error code and user `Register` returned. -/
theorem handleESQueryResponse_event_of_ok (env : Env) (ec : ErrorCodes) (db : DBI)
    (w : World) (event : Event) (draft : User) (clock : Nat)
    (hdec : UnmarshalJSON env w.clock User.zero event.Data = (.ok draft, clock)) :
    (handleESQueryResponse_event env ec db w event).registerCall =
      some { draft with Version := event.Version } ∧
    (handleESQueryResponse_event env ec db w event).world =
      (db.Register { w with clock := clock } { draft with Version := event.Version }).2 ∧
    (handleESQueryResponse_event env ec db w event).panicked = none ∧
    (handleESQueryResponse_event env ec db w event).outcome =
      some (match
          (db.Register { w with clock := clock } { draft with Version := event.Version }).1.err
        with
        | some err =>
          { AggregateID := 1, CorrelationID := event.CorrelationID,
            Error := Wrap err "Error inserting user into Database",
            ErrorCode :=
              (db.Register { w with clock := clock }
                { draft with Version := event.Version }).1.code,
            Result := [] }
        | none =>
          match jsonMarshalUser env
            (db.Register { w with clock := clock }
              { draft with Version := event.Version }).1.user with
          | .error err =>
            { AggregateID := 1, CorrelationID := event.CorrelationID,
              Error := Wrap err
                ("Error Marshalling User from Event ID: " ++ event.UUID.String),
              ErrorCode := ec.InternalError, Result := [] }
          | .ok authUserBytes =>
            { AggregateID := 1, CorrelationID := event.CorrelationID, Error := "",
              ErrorCode := 0, Result := authUserBytes }) := by
  unfold handleESQueryResponse_event
  rw [hdec]
  simp only
  split
  · rename_i e heq
    have h2 : (db.Register { w with clock := clock }
        { draft with Version := event.Version }).1.err = some e := heq
    refine ⟨rfl, rfl, rfl, ?_⟩
    rw [h2]
  · rename_i heq
    have h2 : (db.Register { w with clock := clock }
        { draft with Version := event.Version }).1.err = none := heq
    split
    · rename_i e heq2
      have h3 : jsonMarshalUser env (db.Register { w with clock := clock }
          { draft with Version := event.Version }).1.user = .error e := heq2
      refine ⟨rfl, rfl, rfl, ?_⟩
      rw [h2, h3]
    · rename_i b heq2
      have h3 : jsonMarshalUser env (db.Register { w with clock := clock }
          { draft with Version := event.Version }).1.user = .ok b := heq2
      refine ⟨rfl, rfl, rfl, ?_⟩
      rw [h2, h3]

/-- An iteration of the loop on an event whose payload makes `UnmarshalJSON`
panic: no outcome message, no `Register` call, and nothing of the world changes
but the identifier count. -/
theorem handleESQueryResponse_event_of_panic (env : Env) (ec : ErrorCodes) (db : DBI)
    (w : World) (bad : Event) (p : String)
    (hbad : ∀ clock, (UnmarshalJSON env clock User.zero bad.Data).1 = .panic p) :
    handleESQueryResponse_event env ec db w bad =
      { world := { w with clock := (UnmarshalJSON env w.clock User.zero bad.Data).2 }
        outcome := none, registerCall := none, panicked := some p } := by
  have hb := hbad w.clock
  unfold handleESQueryResponse_event
  split
  · rename_i q clock heq
    rw [heq] at hb ⊢
    simp only [Result.panic.injEq] at hb
    rw [hb]
  · rename_i heq
    rw [heq] at hb
    cases hb
  · rename_i heq
    rw [heq] at hb
    cases hb

/-- Over a prefix of events none of which makes `UnmarshalJSON` panic, the loop
on `pre ++ rest` is the loop on `rest` continued from the loop on `pre`. -/
theorem handleESQueryResponse_loop_append (env : Env) (ec : ErrorCodes) (db : DBI)
    (pre rest : List Event)
    (hpre : ∀ e ∈ pre, ∀ clock p, (UnmarshalJSON env clock User.zero e.Data).1 ≠ .panic p) :
    ∀ r : Run, handleESQueryResponse_loop env ec db (pre ++ rest) r =
      handleESQueryResponse_loop env ec db rest
        (handleESQueryResponse_loop env ec db pre r) := by
  induction pre with
  | nil =>
    intro r
    rw [List.nil_append]
    rfl
  | cons e pre1 ih =>
    intro r
    have hstep := handleESQueryResponse_event_panicked env ec db r.world e
      (fun p => hpre e (List.mem_cons_self _ _) r.world.clock p)
    rw [List.cons_append, handleESQueryResponse_loop, handleESQueryResponse_loop]
    simp only [hstep]
    exact ih (fun x hx => hpre x (List.mem_cons_of_mem _ hx)) _

/-- The loop makes at most one `Register` call per event. -/
theorem handleESQueryResponse_loop_registerCalls_le (env : Env) (ec : ErrorCodes) (db : DBI)
    (events : List Event) :
    ∀ r : Run, (handleESQueryResponse_loop env ec db events r).registerCalls.length
      ≤ r.registerCalls.length + events.length := by
  induction events with
  | nil =>
    intro r
    simp [handleESQueryResponse_loop]
  | cons e rest ih =>
    intro r
    have hone : (handleESQueryResponse_event env ec db r.world e).registerCall.toList.length
        ≤ 1 := by
      cases (handleESQueryResponse_event env ec db r.world e).registerCall <;> simp
    rw [handleESQueryResponse_loop]
    split
    · simp only [List.length_append, List.length_cons]
      omega
    · refine le_trans (ih _) ?_
      simp only [List.length_append, List.length_cons]
      omega

/-- In a batch all of whose payloads decode to a draft user, the loop calls
`Register` once per event, in order, each time with the version of the event. -/
theorem handleESQueryResponse_loop_register_versions (env : Env) (ec : ErrorCodes) (db : DBI)
    (events : List Event)
    (h : ∀ e ∈ events, ∀ clock, ∃ draft clock2,
      UnmarshalJSON env clock User.zero e.Data = (.ok draft, clock2)) :
    ∀ r : Run,
      (handleESQueryResponse_loop env ec db events r).registerCalls.map (fun u => u.Version)
        = r.registerCalls.map (fun u => u.Version) ++ events.map (fun e => e.Version) := by
  induction events with
  | nil =>
    intro r
    simp [handleESQueryResponse_loop]
  | cons e rest ih =>
    intro r
    obtain ⟨draft, clock2, hdec⟩ := h e (List.mem_cons_self _ _) r.world.clock
    obtain ⟨hcall, _, hpan, _⟩ := handleESQueryResponse_event_of_ok env ec db r.world e
      draft clock2 hdec
    rw [handleESQueryResponse_loop]
    simp only [hpan, hcall]
    rw [ih (fun x hx => h x (List.mem_cons_of_mem _ hx))]
    simp

/-- When every payload of the batch decodes to a draft user, a response with
discriminator 1 makes `handleESQueryResponse` call `Register` once per event,
in order, each time with the version of the event. -/
theorem handleESQueryResponse_register_versions (env : Env) (codec : Codec)
    (ec : ErrorCodes) (db : DBI) (w : World) (msg : ConsumerMessage) (kr : KafkaResponse)
    (events : List Event)
    (hdec : codec.unmarshalKafkaResponse msg.Value = .ok kr)
    (hagg : kr.AggregateID = 1)
    (hevents : codec.unmarshalEvents kr.Result = .ok events)
    (h : ∀ e ∈ events, ∀ clock, ∃ draft clock2,
      UnmarshalJSON env clock User.zero e.Data = (.ok draft, clock2)) :
    (handleESQueryResponse env codec ec db w msg).registerCalls.map (fun u => u.Version)
      = events.map (fun e => e.Version) := by
  have hrun : handleESQueryResponse env codec ec db w msg =
      handleESQueryResponse_loop env ec db events { Run.idle w with offsets := [msg] } := by
    simp only [handleESQueryResponse, hdec, hagg, hevents, if_true]
  rw [hrun, handleESQueryResponse_loop_register_versions env ec db events h]
  rfl

/-- Claim C7, on the code: in a response with discriminator 1 whose result
decodes to the events `pre ++ bad :: post`, where the payload of `bad` makes
`UnmarshalJSON` panic and those of `pre` do not, `handleESQueryResponse` makes
exactly the `Register` calls of the events of `pre` and leaves the world as
they left it, but for the identifier count: no event of `post` reaches
`Register`, whether or not its payload decodes to a draft user, and the run
ends in the panic. -/
theorem handleESQueryResponse_register_stops_at_panic (env : Env) (codec : Codec)
    (ec : ErrorCodes) (db : DBI) (w : World) (msg : ConsumerMessage) (kr : KafkaResponse)
    (pre : List Event) (bad : Event) (post : List Event) (p : String)
    (hdec : codec.unmarshalKafkaResponse msg.Value = .ok kr)
    (hagg : kr.AggregateID = 1)
    (hevents : codec.unmarshalEvents kr.Result = .ok (pre ++ bad :: post))
    (hpre : ∀ e ∈ pre, ∀ clock p, (UnmarshalJSON env clock User.zero e.Data).1 ≠ .panic p)
    (hbad : ∀ clock, (UnmarshalJSON env clock User.zero bad.Data).1 = .panic p) :
    (handleESQueryResponse env codec ec db w msg).registerCalls =
      (handleESQueryResponse_loop env ec db pre
        { Run.idle w with offsets := [msg] }).registerCalls ∧
    (handleESQueryResponse env codec ec db w msg).world =
      { (handleESQueryResponse_loop env ec db pre
          { Run.idle w with offsets := [msg] }).world with
        clock := (UnmarshalJSON env
          (handleESQueryResponse_loop env ec db pre
            { Run.idle w with offsets := [msg] }).world.clock User.zero bad.Data).2 } ∧
    (handleESQueryResponse env codec ec db w msg).registerCalls.length ≤ pre.length ∧
    (handleESQueryResponse env codec ec db w msg).registerCalls.length
      < (pre ++ bad :: post).length ∧
    (handleESQueryResponse env codec ec db w msg).panicked = some p := by
  have hrun : handleESQueryResponse env codec ec db w msg =
      handleESQueryResponse_loop env ec db (bad :: post)
        (handleESQueryResponse_loop env ec db pre { Run.idle w with offsets := [msg] }) := by
    simp only [handleESQueryResponse, hdec, hagg, hevents, if_true]
    exact handleESQueryResponse_loop_append env ec db pre (bad :: post) hpre _
  have hle := handleESQueryResponse_loop_registerCalls_le env ec db pre
    { Run.idle w with offsets := [msg] }
  have hzero : (({ Run.idle w with offsets := [msg] } : Run).registerCalls).length = 0 := rfl
  rw [hzero, Nat.zero_add] at hle
  rw [hrun, handleESQueryResponse_loop]
  simp only [handleESQueryResponse_event_of_panic env ec db _ bad p hbad, Option.toList,
    List.append_nil]
  refine ⟨trivial, trivial, hle, Nat.lt_of_le_of_lt hle ?_, trivial⟩
  rw [List.length_append, List.length_cons]
  omega

/-- Witness for C7: a batch of three events with payloads `[1]`, `[2]`, `[1]`
and version 5, over an empty store. The first and the third payload decode to
the draft of `alice`; the second has a numeric `version`. `Register` is called
once, for the first event, and the run ends in a panic, the store holding the
one record of the first event and four identifiers having been drawn (one by
each of the two decodings, two by the one `Register` call). -/
theorem handleESQueryResponse_register_stops_at_panic_witness :
    (∀ clock, (UnmarshalJSON sampleEnv clock User.zero [1]).1 =
      .ok { User.zero with ID := sampleEnv.newObjectID clock, Username := "alice",
                           Email := "a@x.com", Password := "secret" }) ∧
    (handleESQueryResponse sampleEnv sampleCodec sampleCodes (DB sampleEnv sampleCodes)
        ⟨emptyStore, 0⟩ (sampleMessage [1, 1, 2, 1])).registerCalls =
      [{ User.zero with ID := ⟨"a"⟩, Username := "alice", Email := "a@x.com",
                        Password := "secret", Version := 5 }] ∧
    (handleESQueryResponse sampleEnv sampleCodec sampleCodes (DB sampleEnv sampleCodes)
        ⟨emptyStore, 0⟩ (sampleMessage [1, 1, 2, 1])).world =
      { collection :=
          { docs := [{ User.zero with ID := ⟨"aa"⟩, UUID := ⟨"bbb"⟩, Username := "alice",
                                      Email := "a@x.com", Password := "$2a$10$secret",
                                      Version := 5 }],
            fault := none },
        clock := 4 } ∧
    (handleESQueryResponse sampleEnv sampleCodec sampleCodes (DB sampleEnv sampleCodes)
        ⟨emptyStore, 0⟩ (sampleMessage [1, 1, 2, 1])).registerCalls.length ≤ 1 ∧
    (handleESQueryResponse sampleEnv sampleCodec sampleCodes (DB sampleEnv sampleCodes)
        ⟨emptyStore, 0⟩ (sampleMessage [1, 1, 2, 1])).registerCalls.length < 3 ∧
    (handleESQueryResponse sampleEnv sampleCodec sampleCodes (DB sampleEnv sampleCodes)
        ⟨emptyStore, 0⟩ (sampleMessage [1, 1, 2, 1])).panicked =
      some "interface conversion: interface \x7b\x7d is float64, not int64" :=
  ⟨fun _ => rfl,
    handleESQueryResponse_register_stops_at_panic sampleEnv sampleCodec sampleCodes
      (DB sampleEnv sampleCodes) ⟨emptyStore, 0⟩ (sampleMessage [1, 1, 2, 1])
      { AggregateID := 1, CorrelationID := ⟨"k1"⟩, Error := "", ErrorCode := 0,
        Result := [1, 2, 1] }
      [{ AggregateID := 1, CorrelationID := ⟨"c"⟩, Data := [1], UUID := ⟨"e1"⟩,
         Version := 5 }]
      { AggregateID := 1, CorrelationID := ⟨"cc"⟩, Data := [2], UUID := ⟨"e1"⟩, Version := 5 }
      [{ AggregateID := 1, CorrelationID := ⟨"c"⟩, Data := [1], UUID := ⟨"e1"⟩,
         Version := 5 }]
      "interface conversion: interface \x7b\x7d is float64, not int64"
      rfl rfl rfl
      (by
        intro e he clock p h
        rw [List.mem_singleton] at he
        subst he
        cases h)
      (fun _ => rfl)⟩

/-! ## Undecodable messages -/

/-- Claim C11: a message whose body does not decode as an event makes
`handleEvents` return at once, and a message whose body does not decode as a
response envelope does the same to `handleESQueryResponse`: whatever the `DBI`
at hand, no query and no outcome message is sent, no offset is marked, no
`Register` call is made and the world (the store included) is left as it was,
so the run is the idle one and does not depend on the `DBI`. -/
theorem undecodable_message_dropped (env : Env) (codec : Codec) (ec : ErrorCodes)
    (db : DBI) (w : World) (msg : ConsumerMessage) :
    (∀ err : String, codec.unmarshalEvent msg.Value = .error err →
      (handleEvents codec ec db w msg).queries = [] ∧
      (handleEvents codec ec db w msg).outcomes = [] ∧
      (handleEvents codec ec db w msg).offsets = [] ∧
      (handleEvents codec ec db w msg).registerCalls = [] ∧
      (handleEvents codec ec db w msg).world = w ∧
      (handleEvents codec ec db w msg).panicked = none ∧
      ∀ db2 : DBI, handleEvents codec ec db2 w msg = handleEvents codec ec db w msg) ∧
    (∀ err : String, codec.unmarshalKafkaResponse msg.Value = .error err →
      (handleESQueryResponse env codec ec db w msg).queries = [] ∧
      (handleESQueryResponse env codec ec db w msg).outcomes = [] ∧
      (handleESQueryResponse env codec ec db w msg).offsets = [] ∧
      (handleESQueryResponse env codec ec db w msg).registerCalls = [] ∧
      (handleESQueryResponse env codec ec db w msg).world = w ∧
      (handleESQueryResponse env codec ec db w msg).panicked = none ∧
      ∀ db2 : DBI, handleESQueryResponse env codec ec db2 w msg =
        handleESQueryResponse env codec ec db w msg) := by
  constructor
  · intro err herr
    have hrun : ∀ d : DBI, handleEvents codec ec d w msg = Run.idle w := by
      intro d
      simp only [handleEvents, herr]
    rw [hrun db]
    exact ⟨rfl, rfl, rfl, rfl, rfl, rfl, fun db2 => hrun db2⟩
  · intro err herr
    have hrun : ∀ d : DBI, handleESQueryResponse env codec ec d w msg = Run.idle w := by
      intro d
      simp only [handleESQueryResponse, herr]
    rw [hrun db]
    exact ⟨rfl, rfl, rfl, rfl, rfl, rfl, fun db2 => hrun db2⟩

/-- Witness for C11: the message with an empty body, which decodes neither as
an event nor as a response envelope, handled over a store holding three
records. -/
theorem undecodable_message_dropped_witness :
    sampleCodec.unmarshalEvent (sampleMessage []).Value
      = .error "unexpected end of JSON input" ∧
    sampleCodec.unmarshalKafkaResponse (sampleMessage []).Value
      = .error "unexpected end of JSON input" ∧
    (handleEvents sampleCodec sampleCodes (DB sampleEnv sampleCodes) ⟨storeThree, 0⟩
        (sampleMessage [])).queries = [] ∧
    (handleEvents sampleCodec sampleCodes (DB sampleEnv sampleCodes) ⟨storeThree, 0⟩
        (sampleMessage [])).offsets = [] ∧
    (handleESQueryResponse sampleEnv sampleCodec sampleCodes (DB sampleEnv sampleCodes)
        ⟨storeThree, 0⟩ (sampleMessage [])).outcomes = [] ∧
    (handleESQueryResponse sampleEnv sampleCodec sampleCodes (DB sampleEnv sampleCodes)
        ⟨storeThree, 0⟩ (sampleMessage [])).offsets = [] ∧
    (handleESQueryResponse sampleEnv sampleCodec sampleCodes (DB sampleEnv sampleCodes)
        ⟨storeThree, 0⟩ (sampleMessage [])).world = ⟨storeThree, 0⟩ :=
  have h := undecodable_message_dropped sampleEnv sampleCodec sampleCodes
    (DB sampleEnv sampleCodes) ⟨storeThree, 0⟩ (sampleMessage [])
  have h1 := h.1 "unexpected end of JSON input" rfl
  have h2 := h.2 "unexpected end of JSON input" rfl
  ⟨rfl, rfl, h1.1, h1.2.2.1, h2.2.1, h2.2.2.1, h2.2.2.2.2.1⟩

end AuthServer
